import Mathlib

/-!
Verification development for the spatial-media MPEG-4 box engine
(mpeg4_container.cpp, sa3d.cpp) of this repository.

The byte-level embedding represents a binary stream as a `List Nat` of
byte values.  All fixed-width machine arithmetic of the C++ source
(uint32 additions, subtractions and truncations) is made explicit with
`% 4294967296`.
-/

namespace SpatialMedia

/-- Modulus of 32-bit unsigned arithmetic. -/
def UINT32_MOD : Nat := 4294967296

/-- Modulus of 64-bit unsigned arithmetic. -/
def UINT64_MOD : Nat := 18446744073709551616

/-- Unsigned 32-bit addition as performed on `uint32_t` values in the source. -/
def add32 (a b : Nat) : Nat := (a + b) % UINT32_MOD

/-- Unsigned 32-bit subtraction as performed on `uint32_t` values in the
source: the result is the mathematical difference taken modulo `2^32`. -/
def sub32 (a b : Nat) : Nat := (a % UINT32_MOD + (UINT32_MOD - b % UINT32_MOD)) % UINT32_MOD

/-- A four-byte box tag, compared by raw bytes (never as a C string). -/
abbrev Tag := Nat × Nat × Nat × Nat

/-- Tag bytes of the media-data box: the ASCII codes of m, d, a, t. -/
def TAG_MDAT : Tag := (109, 100, 97, 116)

/-- Tag bytes of the movie-metadata box: the ASCII codes of m, o, o, v. -/
def TAG_MOOV : Tag := (109, 111, 111, 118)

/-- Tag bytes of the free-space box: the ASCII codes of f, r, e, e. -/
def TAG_FREE : Tag := (102, 114, 101, 101)

/-- Tag bytes of the file-type box: the ASCII codes of f, t, y, p. -/
def TAG_FTYP : Tag := (102, 116, 121, 112)

/-- Tag bytes of the spatial-audio box: the ASCII codes of S, A, 3, D. -/
def TAG_SA3D : Tag := (83, 65, 51, 68)

/-- Modelled from the spec: the abstract `Box` base class (box.h / box.cpp are
absent from the sources).  Section 3 of the spec gives its attributes: a
four-byte tag, a header size (8 normal, 16 extended), the byte position of
the box in the source stream, and the content size (payload bytes
excluding the header). -/
structure Box where
  m_name : Tag
  m_iHeaderSize : Nat
  m_iContentSize : Nat
  m_iPosition : Nat
deriving DecidableEq, Repr

/-- Modelled from the spec: `Box::size()` (box.cpp absent from the sources);
the spec states the invariant `size() == headerSize + contentSize`. -/
def Box.size (b : Box) : Nat := b.m_iHeaderSize + b.m_iContentSize

/-! ## Binary I/O primitives

Modelled from the spec (section 4.1): the shared read/write helpers of
box.cpp are absent from the sources.  They read and write fixed-width
big-endian unsigned integers at the current stream position, advancing it.
The stream is a byte list; a read consumes its prefix. -/

/-- Modelled from the spec: read one byte, advancing the stream. -/
def readUint8 (s : List Nat) : Nat × List Nat := (s.headD 0, s.tail)

/-- Modelled from the spec: read a big-endian 32-bit unsigned integer. -/
def readUint32 (s : List Nat) : Nat × List Nat :=
  let b0 := (readUint8 s).1
  let s0 := (readUint8 s).2
  let b1 := (readUint8 s0).1
  let s1 := (readUint8 s0).2
  let b2 := (readUint8 s1).1
  let s2 := (readUint8 s1).2
  let b3 := (readUint8 s2).1
  let s3 := (readUint8 s2).2
  (((b0 * 256 + b1) * 256 + b2) * 256 + b3, s3)

/-- Modelled from the spec: read a big-endian 64-bit unsigned integer. -/
def readUint64 (s : List Nat) : Nat × List Nat :=
  let h := (readUint32 s).1
  let s0 := (readUint32 s).2
  let l := (readUint32 s0).1
  let s1 := (readUint32 s0).2
  (h * 4294967296 + l, s1)

/-- Read of a raw four-byte tag, mirroring `fs.read ( name, 4 )`. -/
def readTag (s : List Nat) : Tag × List Nat :=
  ((s.headD 0, s.tail.headD 0, s.tail.tail.headD 0, s.tail.tail.tail.headD 0),
   s.tail.tail.tail.tail)

/-- Modelled from the spec: write one byte (the value truncated to 8 bits). -/
def writeUint8 (v : Nat) : List Nat := [v % 256]

/-- Modelled from the spec: write a big-endian 32-bit unsigned integer
(the value truncated to 32 bits, byte by byte). -/
def writeUint32 (v : Nat) : List Nat :=
  [v / 16777216 % 256, v / 65536 % 256, v / 256 % 256, v % 256]

/-- Modelled from the spec: write a big-endian 64-bit unsigned integer. -/
def writeUint64 (v : Nat) : List Nat :=
  writeUint32 (v / 4294967296) ++ writeUint32 v

/-- Write of a raw four-byte tag, mirroring `fsOut.write ( m_name, 4 )`. -/
def writeTag (t : Tag) : List Nat := [t.1, t.2.1, t.2.2.1, t.2.2.2]

/-! ## SA3DBox (sa3d.cpp) -/

/-- The SA3D spatial-audio box, translated from the `SA3DBox` class of
sa3d.cpp: the `Box` fields plus the six fixed audio-metadata fields and
the variable-length channel map. -/
structure SA3DBox where
  m_name : Tag
  m_iHeaderSize : Nat
  m_iPosition : Nat
  m_iContentSize : Nat
  m_iVersion : Nat
  m_iAmbisonicType : Nat
  m_iAmbisonicOrder : Nat
  m_iAmbisonicChannelOrdering : Nat
  m_iAmbisonicNormalization : Nat
  m_iNumChannels : Nat
  m_ChannelMap : List Nat
deriving DecidableEq, Repr

/-- Modelled from the spec: `Box::size()` for the SA3D box, the sum of
header size and content size. -/
def SA3DBox.size (b : SA3DBox) : Nat := b.m_iHeaderSize + b.m_iContentSize

/-- Translation of `SA3DBox::create` (sa3d.cpp).  The ambisonic order is
`::sqrt(iNumChannels) - 1` truncated to an integer; for every nonnegative
`int32_t` argument the double-precision square root is close enough to the
exact root that the truncation equals `Nat.sqrt iNumChannels - 1`.  The
content size is the accumulated sum 1+1+4+1+1+4 of the fixed field widths
plus 4 bytes per channel-map entry, and the channel map is the linear map
0, 1, ..., n-1 pushed by the loop. -/
def SA3DBox.create (iNumChannels : Nat) : SA3DBox :=
  { m_name := TAG_SA3D
    m_iHeaderSize := 8
    m_iPosition := 0
    m_iContentSize := 0 + 1 + 1 + 4 + 1 + 1 + 4 + 4 * iNumChannels
    m_iVersion := 0
    m_iAmbisonicType := 0
    m_iAmbisonicOrder := Nat.sqrt iNumChannels - 1
    m_iAmbisonicChannelOrdering := 0
    m_iAmbisonicNormalization := 0
    m_iNumChannels := iNumChannels
    m_ChannelMap := List.range iNumChannels }

/-- Byte serialization of the channel map, mirroring the write loop at the
end of `SA3DBox::save`. -/
def writeChannelMap : List Nat → List Nat
  | [] => []
  | v :: rest => writeUint32 v ++ writeChannelMap rest

/-- Translation of `SA3DBox::save` (sa3d.cpp): header in the form selected
by `m_iHeaderSize` (16: marker 1, tag, 64-bit size; 8: 32-bit size, tag),
then the six fixed fields, then the channel map.  The source stream
argument is unused by the C++ code and omitted. -/
def SA3DBox.save (b : SA3DBox) : List Nat :=
  (if b.m_iHeaderSize = 16 then
    writeUint32 1 ++ writeTag b.m_name ++ writeUint64 b.size
   else if b.m_iHeaderSize = 8 then
    writeUint32 b.size ++ writeTag b.m_name
   else []) ++
  writeUint8 b.m_iVersion ++
  writeUint8 b.m_iAmbisonicType ++
  writeUint32 b.m_iAmbisonicOrder ++
  writeUint8 b.m_iAmbisonicChannelOrdering ++
  writeUint8 b.m_iAmbisonicNormalization ++
  writeUint32 b.m_iNumChannels ++
  writeChannelMap b.m_ChannelMap

/-- The channel-map read loop of `SA3DBox::load`: reads `n` big-endian
32-bit values, returning them with the rest of the stream. -/
def readChannelMap (s : List Nat) : Nat → List Nat × List Nat
  | 0 => ([], s)
  | n + 1 =>
    let v := (readUint32 s).1
    let s0 := (readUint32 s).2
    let rest := (readChannelMap s0 n).1
    let s1 := (readChannelMap s0 n).2
    (v :: rest, s1)

/-- Translation of `SA3DBox::load` (sa3d.cpp).  The stream is positioned at
`iPos` (the `fs.seekg ( iPos )`), the 32-bit size and the four tag bytes
are read, and a size value of 1 triggers the 64-bit extended size, whose
value is truncated through the `(int32_t)` cast back into the `uint32_t`
size.  The tag test is `memcmp ( name, constants::TAG_SA3D,
sizeof ( *constants::TAG_SA3D ) )`, and since `*constants::TAG_SA3D` is a
single `char`, it compares exactly one byte.  The box returned on success
keeps the constructor defaults for the name and the 8-byte header size,
and its content size is the unsigned 32-bit difference of the parsed size
and that 8-byte header size. -/
def SA3DBox.load (fs : List Nat) (iPos iEnd : Nat) : Option SA3DBox :=
  let s0 := fs.drop iPos
  let iSize0 := (readUint32 s0).1
  let s1 := (readUint32 s0).2
  let name := (readTag s1).1
  let s2 := (readTag s1).2
  let iSize := if iSize0 = 1 then (readUint64 s2).1 % UINT32_MOD else iSize0
  let s3 := if iSize0 = 1 then (readUint64 s2).2 else s2
  if name.1 ≠ TAG_SA3D.1 then none
  else if add32 iPos iSize > iEnd then none
  else
    let ver := (readUint8 s3).1
    let s4 := (readUint8 s3).2
    let typ := (readUint8 s4).1
    let s5 := (readUint8 s4).2
    let ord := (readUint32 s5).1
    let s6 := (readUint32 s5).2
    let chOrd := (readUint8 s6).1
    let s7 := (readUint8 s6).2
    let nrm := (readUint8 s7).1
    let s8 := (readUint8 s7).2
    let nCh := (readUint32 s8).1
    let s9 := (readUint32 s8).2
    some
      { m_name := TAG_SA3D
        m_iHeaderSize := 8
        m_iPosition := iPos
        m_iContentSize := sub32 iSize 8
        m_iVersion := ver
        m_iAmbisonicType := typ
        m_iAmbisonicOrder := ord
        m_iAmbisonicChannelOrdering := chOrd
        m_iAmbisonicNormalization := nrm
        m_iNumChannels := nCh
        m_ChannelMap := (readChannelMap s9 nCh).1 }

/-! ## Mpeg4Container (mpeg4_container.cpp)

A non-owning child reference (a `Box *` into the child list) is modelled
as the pair of the child's index in the list and its value, so that
pointer identity is preserved by the embedding. -/

/-- The four tracked references built by the identification loop of
`Mpeg4Container::load`. -/
structure Refs where
  moov : Option (Nat × Box)
  free : Option (Nat × Box)
  mdat : Option (Nat × Box)
  ftyp : Option (Nat × Box)
deriving DecidableEq, Repr

/-- One iteration of the identification loop of `Mpeg4Container::load`:
the four `if` statements in source order.  Only the mdat assignment is
guarded by the reference being still unset. -/
def stepRefs (r : Refs) (i : Nat) (b : Box) : Refs :=
  let r1 := if b.m_name = TAG_MOOV then { r with moov := some (i, b) } else r
  let r2 := if b.m_name = TAG_FREE then { r1 with free := some (i, b) } else r1
  let r3 := if b.m_name = TAG_MDAT ∧ r2.mdat = none then { r2 with mdat := some (i, b) } else r2
  if b.m_name = TAG_FTYP then { r3 with ftyp := some (i, b) } else r3

/-- The identification loop of `Mpeg4Container::load` over the whole child
list, indexed from `i`. -/
def scanRefs (i : Nat) (r : Refs) : List Box → Refs
  | [] => r
  | b :: rest => scanRefs (i + 1) (stepRefs r i b) rest

/-- The concrete root container: the child list, the four tracked
references, the media-data content start captured at load time, and the
accumulated content size. -/
structure Mpeg4Container where
  m_listContents : List Box
  m_pMoovBox : Option (Nat × Box)
  m_pFreeBox : Option (Nat × Box)
  m_pFirstMDatBox : Option (Nat × Box)
  m_pFTYPBox : Option (Nat × Box)
  m_iFirstMDatPos : Nat
  m_iContentSize : Nat
deriving DecidableEq, Repr

/-- Translation of `Mpeg4Container::load` (mpeg4_container.cpp) applied to
the already-parsed top-level box list (the parsing collaborator
`load_multiple` is shared base-class code absent from the sources).  An
empty list is the parse-failure case; the references are set by the
identification loop; a missing moov or missing mdat reference aborts the
load; the media-data content start and the total content size are computed
with unsigned 32-bit arithmetic. -/
def Mpeg4Container.load (list : List Box) : Option Mpeg4Container :=
  if list = [] then none
  else
    let r := scanRefs 0 ⟨none, none, none, none⟩ list
    match r.moov with
    | none => none
    | some _ =>
      match r.mdat with
      | none => none
      | some m =>
        some
          { m_listContents := list
            m_pMoovBox := r.moov
            m_pFreeBox := r.free
            m_pFirstMDatBox := r.mdat
            m_pFTYPBox := r.ftyp
            m_iFirstMDatPos := add32 m.2.m_iPosition m.2.m_iHeaderSize
            m_iContentSize := list.foldl (fun acc b => add32 acc b.size) 0 }

/-- The outcome of an operation that may terminate the process instead of
returning: `processExit` records the exit code and the (unchanged)
container state at the point of termination. -/
inductive MergeOutcome where
  | processExit (code : Nat) (stateAtExit : Mpeg4Container)
  | returns (result : Mpeg4Container)
deriving DecidableEq

/-- Translation of `Mpeg4Container::merge` (mpeg4_container.cpp): it
ignores its argument, prints a diagnostic, and calls `exit ( 0 )` — the
process terminates with the container untouched. -/
def Mpeg4Container.merge (c : Mpeg4Container) (pElement : Box) : MergeOutcome :=
  MergeOutcome.processExit 0 c

/-- The scan of the first loop of `Mpeg4Container::save`: accumulate the
sizes of the children in order (32-bit addition) until the first child
tagged mdat, whose header size is added instead of its full size. -/
def newMDatPos (acc : Nat) : List Box → Nat
  | [] => acc
  | b :: rest =>
    if b.m_name = TAG_MDAT then add32 acc b.m_iHeaderSize
    else newMDatPos (add32 acc b.size) rest

/-- The delta computed by `Mpeg4Container::save`: the unsigned 32-bit
difference of the recomputed media-data start and the load-time value. -/
def saveDelta (c : Mpeg4Container) : Nat :=
  sub32 (newMDatPos 0 c.m_listContents) c.m_iFirstMDatPos

/-- Modelled from the spec: `Container::resize` (absent base-class code)
recomputes content sizes bottom-up from the current children; the
top-level children of this model are opaque boxes whose recorded sizes
already describe their current state, so the pass leaves them unchanged. -/
def Mpeg4Container.resize (c : Mpeg4Container) : Mpeg4Container := c

/-- Translation of `Mpeg4Container::save` (mpeg4_container.cpp): after the
`resize` pass it computes the delta and then invokes `save` on every child
in original list order, forwarding the same delta to each.  The result
records the computed delta together with the sequence of child save
invocations (child, forwarded delta). -/
def Mpeg4Container.save (c : Mpeg4Container) : Nat × List (Box × Nat) :=
  let c0 := c.resize
  let iDelta := saveDelta c0
  (iDelta, c0.m_listContents.map fun b => (b, iDelta))

/-! ## Reference-specification functions for the identification loop -/

/-- The first child in list order bearing a tag, with its index (indexing
starts at `i`).  This is the reference point of the claim that the tracked
references are first matches. -/
def firstMatchFrom (t : Tag) (i : Nat) : List Box → Option (Nat × Box)
  | [] => none
  | b :: rest => if b.m_name = t then some (i, b) else firstMatchFrom t (i + 1) rest

/-- The last child in list order bearing a tag, with its index (indexing
starts at `i`). -/
def lastMatchFrom (t : Tag) (i : Nat) : List Box → Option (Nat × Box)
  | [] => none
  | b :: rest =>
    match lastMatchFrom t (i + 1) rest with
    | some x => some x
    | none => if b.m_name = t then some (i, b) else none

/-- Modelled from the spec: `load_multiple` (absent base-class code) parses
a flat sequence of boxes spanning the input from position `p` on, so each
parsed box records as its position the running sum of the sizes of the
boxes before it. -/
def contiguousFrom (p : Nat) : List Box → Bool
  | [] => true
  | b :: rest => decide (b.m_iPosition = p) && contiguousFrom (p + b.size) rest

/-- Plain (unbounded) sum of the sizes of a list of boxes. -/
def sumSizes : List Box → Nat
  | [] => 0
  | b :: rest => b.size + sumSizes rest

/-! ## Concrete instances used by the individual verification results -/

/-- A movie-metadata box with 10 content bytes at position 0. -/
def moovA : Box := ⟨TAG_MOOV, 8, 10, 0⟩

/-- A second, distinct movie-metadata box with 20 content bytes at position 18. -/
def moovB : Box := ⟨TAG_MOOV, 8, 20, 18⟩

/-- A media-data box with 5 content bytes at position 46. -/
def mdatC : Box := ⟨TAG_MDAT, 8, 5, 46⟩

/-- A top-level list holding two movie-metadata boxes and a media-data box. -/
def listC2 : List Box := [moovA, moovB, mdatC]

/-- The container produced by loading `listC2`. -/
def c2val : Mpeg4Container :=
  ⟨listC2, some (1, moovB), none, some (2, mdatC), none, 54, 59⟩

/-- A file-type box for the completeness test list. -/
def ftyp5 : Box := ⟨TAG_FTYP, 8, 12, 0⟩

/-- A movie-metadata box for the completeness test list. -/
def moov5 : Box := ⟨TAG_MOOV, 8, 100, 20⟩

/-- A free-space box for the completeness test list. -/
def free5 : Box := ⟨TAG_FREE, 8, 4, 128⟩

/-- A media-data box for the completeness test list. -/
def mdat5 : Box := ⟨TAG_MDAT, 8, 50, 140⟩

/-- A top-level list with one box of each of the four recognized tags. -/
def list5 : List Box := [ftyp5, moov5, free5, mdat5]

/-- The container produced by loading `list5`. -/
def c5val : Mpeg4Container :=
  ⟨list5, some (1, moov5), some (2, free5), some (3, mdat5), some (0, ftyp5), 148, 198⟩

/-- A spatial-audio box forced into the 16-byte extended header form
(one channel, content size 16, total size 32). -/
def c3box : SA3DBox := { SA3DBox.create 1 with m_iHeaderSize := 16 }

/-- Bytes of a box whose tag S, B, A, D agrees with the spatial-audio tag
only in its first byte, followed by well-formed SA3D content declaring
zero channels. -/
def c4bytes : List Nat :=
  [0, 0, 0, 20, 83, 66, 65, 68, 0, 0, 0, 0, 0, 0, 0, 0, 0, 0, 0, 0]

/-- Bytes of a box whose tag T, A, 3, D differs from the spatial-audio tag
in its first byte, with the same trailing content as `c4bytes`. -/
def c4bytesB : List Nat :=
  [0, 0, 0, 20, 84, 65, 51, 68, 0, 0, 0, 0, 0, 0, 0, 0, 0, 0, 0, 0]

/-- Bytes of a spatial-audio box whose declared size 21 is inconsistent
with its zero channel count (a consistent size would be 20). -/
def c7bytes : List Nat :=
  [0, 0, 0, 21, 83, 65, 51, 68, 0, 0, 0, 0, 0, 0, 0, 0, 0, 0, 0, 0]

/-- The box produced by loading `c7bytes`: 13 content bytes, no channels. -/
def c7box : SA3DBox := ⟨TAG_SA3D, 8, 0, 13, 0, 0, 0, 0, 0, 0, []⟩

/-- A container whose recorded media-data start (100) exceeds the
media-data start recomputed from its current child list (8). -/
def c10w : Mpeg4Container := ⟨[⟨TAG_MDAT, 8, 5, 0⟩], none, none, none, none, 100, 0⟩

/-- A file-type box (size 12) at position 0 of a contiguous file. -/
def ftypW : Box := ⟨TAG_FTYP, 8, 4, 0⟩

/-- A movie-metadata box (size 28) at position 12 of a contiguous file. -/
def moovW : Box := ⟨TAG_MOOV, 8, 20, 12⟩

/-- A media-data box (size 108) at position 40 of a contiguous file. -/
def mdatW : Box := ⟨TAG_MDAT, 8, 100, 40⟩

/-- A free-space box (size 16) injected after loading. -/
def freeW : Box := ⟨TAG_FREE, 8, 8, 0⟩

/-- The container produced by loading the contiguous list
`[ftypW, moovW, mdatW]`. -/
def cW : Mpeg4Container :=
  ⟨[ftypW, moovW, mdatW], some (1, moovW), none, some (2, mdatW), some (0, ftypW), 48, 148⟩

/-- An empty container used as a concrete merge receiver. -/
def c9w : Mpeg4Container := ⟨[], none, none, none, none, 0, 0⟩

/-- An arbitrary box used as a concrete merge argument. -/
def b9w : Box := ⟨TAG_MOOV, 8, 0, 0⟩

/-! ## Read-after-write lemmas for the primitives -/

theorem readUint8_writeUint8 (v : Nat) (r : List Nat) :
    readUint8 (writeUint8 v ++ r) = (v % 256, r) := by
  simp [readUint8, writeUint8]

theorem readUint32_writeUint32 (v : Nat) (r : List Nat) :
    readUint32 (writeUint32 v ++ r) = (v % UINT32_MOD, r) := by
  simp only [readUint32, readUint8, writeUint32, UINT32_MOD, List.cons_append,
    List.headD_cons, List.tail_cons, List.nil_append, Prod.mk.injEq]
  refine ⟨?_, trivial⟩
  omega

theorem readUint64_writeUint64 (v : Nat) (r : List Nat) :
    readUint64 (writeUint64 v ++ r) = (v % UINT64_MOD, r) := by
  simp only [readUint64, writeUint64, List.append_assoc, readUint32_writeUint32,
    Prod.mk.injEq]
  refine ⟨?_, trivial⟩
  simp only [UINT32_MOD, UINT64_MOD]
  omega

theorem readTag_writeTag (t : Tag) (r : List Nat) :
    readTag (writeTag t ++ r) = (t, r) := by
  simp [readTag, writeTag]

/-! ## Behaviour of the identification loop -/

theorem stepRefs_mdat (r : Refs) (i : Nat) (b : Box) :
    (stepRefs r i b).mdat =
      if b.m_name = TAG_MDAT ∧ r.mdat = none then some (i, b) else r.mdat := by
  by_cases h1 : b.m_name = TAG_MOOV <;>
    by_cases h2 : b.m_name = TAG_FREE <;>
      by_cases h4 : b.m_name = TAG_FTYP <;>
        by_cases h0 : b.m_name = TAG_MDAT <;>
          by_cases h3 : r.mdat = none <;>
            simp_all [stepRefs, TAG_MDAT, TAG_MOOV, TAG_FREE, TAG_FTYP]

theorem stepRefs_moov (r : Refs) (i : Nat) (b : Box) :
    (stepRefs r i b).moov = if b.m_name = TAG_MOOV then some (i, b) else r.moov := by
  by_cases h1 : b.m_name = TAG_MOOV <;>
    by_cases h2 : b.m_name = TAG_FREE <;>
      by_cases h4 : b.m_name = TAG_FTYP <;>
        by_cases h0 : b.m_name = TAG_MDAT <;>
          by_cases h3 : r.mdat = none <;>
            simp_all [stepRefs, TAG_MDAT, TAG_MOOV, TAG_FREE, TAG_FTYP]

theorem stepRefs_free (r : Refs) (i : Nat) (b : Box) :
    (stepRefs r i b).free = if b.m_name = TAG_FREE then some (i, b) else r.free := by
  by_cases h1 : b.m_name = TAG_MOOV <;>
    by_cases h2 : b.m_name = TAG_FREE <;>
      by_cases h4 : b.m_name = TAG_FTYP <;>
        by_cases h0 : b.m_name = TAG_MDAT <;>
          by_cases h3 : r.mdat = none <;>
            simp_all [stepRefs, TAG_MDAT, TAG_MOOV, TAG_FREE, TAG_FTYP]

theorem stepRefs_ftyp (r : Refs) (i : Nat) (b : Box) :
    (stepRefs r i b).ftyp = if b.m_name = TAG_FTYP then some (i, b) else r.ftyp := by
  by_cases h1 : b.m_name = TAG_MOOV <;>
    by_cases h2 : b.m_name = TAG_FREE <;>
      by_cases h4 : b.m_name = TAG_FTYP <;>
        by_cases h0 : b.m_name = TAG_MDAT <;>
          by_cases h3 : r.mdat = none <;>
            simp_all [stepRefs, TAG_MDAT, TAG_MOOV, TAG_FREE, TAG_FTYP]

theorem scanRefs_mdat (L : List Box) : ∀ (i : Nat) (r : Refs),
    (scanRefs i r L).mdat =
      match r.mdat with
      | some x => some x
      | none => firstMatchFrom TAG_MDAT i L := by
  induction L with
  | nil => intro i r; cases h : r.mdat <;> simp [scanRefs, firstMatchFrom, h]
  | cons b rest ih =>
    intro i r
    simp only [scanRefs]
    rw [ih, stepRefs_mdat]
    cases h : r.mdat with
    | some x => simp [h]
    | none =>
      by_cases hb : b.m_name = TAG_MDAT <;> simp [firstMatchFrom, hb, h]

theorem scanRefs_moov (L : List Box) : ∀ (i : Nat) (r : Refs),
    (scanRefs i r L).moov =
      match lastMatchFrom TAG_MOOV i L with
      | some x => some x
      | none => r.moov := by
  induction L with
  | nil => intro i r; simp [scanRefs, lastMatchFrom]
  | cons b rest ih =>
    intro i r
    simp only [scanRefs, lastMatchFrom]
    rw [ih, stepRefs_moov]
    cases h : lastMatchFrom TAG_MOOV (i + 1) rest with
    | some x => simp
    | none => by_cases hb : b.m_name = TAG_MOOV <;> simp [hb]

theorem scanRefs_free (L : List Box) : ∀ (i : Nat) (r : Refs),
    (scanRefs i r L).free =
      match lastMatchFrom TAG_FREE i L with
      | some x => some x
      | none => r.free := by
  induction L with
  | nil => intro i r; simp [scanRefs, lastMatchFrom]
  | cons b rest ih =>
    intro i r
    simp only [scanRefs, lastMatchFrom]
    rw [ih, stepRefs_free]
    cases h : lastMatchFrom TAG_FREE (i + 1) rest with
    | some x => simp
    | none => by_cases hb : b.m_name = TAG_FREE <;> simp [hb]

theorem scanRefs_ftyp (L : List Box) : ∀ (i : Nat) (r : Refs),
    (scanRefs i r L).ftyp =
      match lastMatchFrom TAG_FTYP i L with
      | some x => some x
      | none => r.ftyp := by
  induction L with
  | nil => intro i r; simp [scanRefs, lastMatchFrom]
  | cons b rest ih =>
    intro i r
    simp only [scanRefs, lastMatchFrom]
    rw [ih, stepRefs_ftyp]
    cases h : lastMatchFrom TAG_FTYP (i + 1) rest with
    | some x => simp
    | none => by_cases hb : b.m_name = TAG_FTYP <;> simp [hb]

theorem firstMatchFrom_eq_none (t : Tag) (L : List Box)
    (h : ∀ b ∈ L, b.m_name ≠ t) : ∀ i, firstMatchFrom t i L = none := by
  induction L with
  | nil => intro i; simp [firstMatchFrom]
  | cons b rest ih =>
    intro i
    have hb : b.m_name ≠ t := h b (by simp)
    simp only [firstMatchFrom, hb, if_false]
    exact ih (fun x hx => h x (by simp [hx])) (i + 1)

theorem lastMatchFrom_eq_none (t : Tag) (L : List Box)
    (h : ∀ b ∈ L, b.m_name ≠ t) : ∀ i, lastMatchFrom t i L = none := by
  induction L with
  | nil => intro i; simp [lastMatchFrom]
  | cons b rest ih =>
    intro i
    have hb : b.m_name ≠ t := h b (by simp)
    simp only [lastMatchFrom]
    rw [ih (fun x hx => h x (by simp [hx])) (i + 1)]
    simp [hb]

theorem firstMatchFrom_append (t : Tag) (Pre : List Box)
    (hPre : ∀ b ∈ Pre, b.m_name ≠ t) (m : Box) (hm : m.m_name = t) (R : List Box) :
    ∀ i, firstMatchFrom t i (Pre ++ m :: R) = some (i + Pre.length, m) := by
  induction Pre with
  | nil => intro i; simp [firstMatchFrom, hm]
  | cons b rest ih =>
    intro i
    have hb : b.m_name ≠ t := hPre b (by simp)
    have hstep : firstMatchFrom t i ((b :: rest) ++ m :: R) =
        firstMatchFrom t (i + 1) (rest ++ m :: R) := by
      simp [firstMatchFrom, hb]
    rw [hstep, ih (fun x hx => hPre x (by simp [hx])) (i + 1)]
    simp only [List.length_cons, Option.some.injEq, Prod.mk.injEq]
    constructor
    · omega
    · trivial

/-! ## Characterization of a successful container load -/

theorem load_spec (L : List Box) (c : Mpeg4Container)
    (h : Mpeg4Container.load L = some c) :
    c.m_listContents = L ∧
    c.m_pFirstMDatBox = firstMatchFrom TAG_MDAT 0 L ∧
    c.m_pMoovBox = lastMatchFrom TAG_MOOV 0 L ∧
    c.m_pFreeBox = lastMatchFrom TAG_FREE 0 L ∧
    c.m_pFTYPBox = lastMatchFrom TAG_FTYP 0 L ∧
    ∀ p, firstMatchFrom TAG_MDAT 0 L = some p →
      c.m_iFirstMDatPos = add32 p.2.m_iPosition p.2.m_iHeaderSize := by
  have hmdat : (scanRefs 0 ⟨none, none, none, none⟩ L).mdat =
      firstMatchFrom TAG_MDAT 0 L := by
    rw [scanRefs_mdat]
  have hmoov : (scanRefs 0 ⟨none, none, none, none⟩ L).moov =
      lastMatchFrom TAG_MOOV 0 L := by
    rw [scanRefs_moov]; cases lastMatchFrom TAG_MOOV 0 L <;> rfl
  have hfree : (scanRefs 0 ⟨none, none, none, none⟩ L).free =
      lastMatchFrom TAG_FREE 0 L := by
    rw [scanRefs_free]; cases lastMatchFrom TAG_FREE 0 L <;> rfl
  have hftyp : (scanRefs 0 ⟨none, none, none, none⟩ L).ftyp =
      lastMatchFrom TAG_FTYP 0 L := by
    rw [scanRefs_ftyp]; cases lastMatchFrom TAG_FTYP 0 L <;> rfl
  unfold Mpeg4Container.load at h
  by_cases hL : L = []
  · simp [hL] at h
  · simp only [hL, if_false] at h
    cases hm : (scanRefs 0 ⟨none, none, none, none⟩ L).moov with
    | none => rw [hm] at h; exact absurd h (by simp)
    | some mv =>
      cases hd : (scanRefs 0 ⟨none, none, none, none⟩ L).mdat with
      | none => rw [hm, hd] at h; exact absurd h (by simp)
      | some md =>
        rw [hm, hd] at h
        simp only [Option.some.injEq] at h
        subst h
        refine ⟨rfl, ?_, ?_, ?_, ?_, ?_⟩
        · show some md = firstMatchFrom TAG_MDAT 0 L
          rw [← hmdat, hd]
        · show some mv = lastMatchFrom TAG_MOOV 0 L
          rw [← hmoov, hm]
        · exact hfree
        · exact hftyp
        · intro p hp
          rw [← hmdat, hd] at hp
          cases hp
          rfl

theorem load_eq_none_of_no_moov (L : List Box)
    (h : ∀ b ∈ L, b.m_name ≠ TAG_MOOV) : Mpeg4Container.load L = none := by
  unfold Mpeg4Container.load
  by_cases hL : L = []
  · simp [hL]
  · simp only [hL, if_false]
    have hmoov := scanRefs_moov L 0 ⟨none, none, none, none⟩
    rw [lastMatchFrom_eq_none TAG_MOOV L h 0] at hmoov
    rw [hmoov]

theorem load_eq_none_of_no_mdat (L : List Box)
    (h : ∀ b ∈ L, b.m_name ≠ TAG_MDAT) : Mpeg4Container.load L = none := by
  unfold Mpeg4Container.load
  by_cases hL : L = []
  · simp [hL]
  · simp only [hL, if_false]
    have hmdat := scanRefs_mdat L 0 ⟨none, none, none, none⟩
    rw [firstMatchFrom_eq_none TAG_MDAT L h 0] at hmdat
    rw [hmdat]
    cases (scanRefs 0 ⟨none, none, none, none⟩ L).moov <;> rfl

/-! ## Arithmetic facts for the 32-bit helpers -/

theorem add32_eq (a b : Nat) (h : a + b < UINT32_MOD) : add32 a b = a + b := by
  unfold add32
  exact Nat.mod_eq_of_lt h

theorem sub32_eq (a b : Nat) (hb : b ≤ a) (ha : a < UINT32_MOD) :
    sub32 a b = a - b := by
  unfold sub32
  rw [Nat.mod_eq_of_lt ha, Nat.mod_eq_of_lt (Nat.lt_of_le_of_lt hb ha)]
  have h1 : a + (UINT32_MOD - b) = UINT32_MOD + (a - b) := by omega
  rw [h1, Nat.add_mod_left]
  exact Nat.mod_eq_of_lt (by omega)

theorem sumSizes_append (A B : List Box) :
    sumSizes (A ++ B) = sumSizes A + sumSizes B := by
  induction A with
  | nil => simp [sumSizes]
  | cons b rest ih => simp [sumSizes, ih]; omega

theorem contiguousFrom_position (Pre : List Box) (m : Box) (R : List Box) :
    ∀ p, contiguousFrom p (Pre ++ m :: R) = true →
      m.m_iPosition = p + sumSizes Pre := by
  induction Pre with
  | nil =>
    intro p h
    simp only [List.nil_append, contiguousFrom, Bool.and_eq_true, decide_eq_true_eq] at h
    simp [sumSizes, h.1]
  | cons b rest ih =>
    intro p h
    simp only [List.cons_append, contiguousFrom, Bool.and_eq_true, decide_eq_true_eq] at h
    have := ih (p + b.size) h.2
    simp only [sumSizes]
    omega

theorem newMDatPos_append (Pre : List Box)
    (hPre : ∀ b ∈ Pre, b.m_name ≠ TAG_MDAT) (m : Box)
    (hm : m.m_name = TAG_MDAT) (R : List Box) :
    ∀ acc, acc + sumSizes Pre + m.m_iHeaderSize < UINT32_MOD →
      newMDatPos acc (Pre ++ m :: R) = acc + sumSizes Pre + m.m_iHeaderSize := by
  induction Pre with
  | nil =>
    intro acc hb
    simp only [List.nil_append, newMDatPos, hm, if_true]
    rw [add32_eq]
    · simp [sumSizes]
    · simp only [sumSizes] at hb; omega
  | cons b rest ih =>
    intro acc hb
    have hbm : b.m_name ≠ TAG_MDAT := hPre b (by simp)
    simp only [sumSizes] at hb ⊢
    have hstep : newMDatPos acc ((b :: rest) ++ m :: R) =
        newMDatPos (add32 acc b.size) (rest ++ m :: R) := by
      simp [newMDatPos, hbm]
    rw [hstep, add32_eq acc b.size (by omega)]
    rw [ih (fun x hx => hPre x (by simp [hx])) (acc + b.size) (by omega)]
    omega

theorem readChannelMap_length (n : Nat) : ∀ s, (readChannelMap s n).1.length = n := by
  induction n with
  | zero => intro s; rfl
  | succ k ih =>
    intro s
    simp only [readChannelMap, List.length_cons]
    rw [ih]

theorem sa3d_load_channelMap_length (fs : List Nat) (iPos iEnd : Nat) (b : SA3DBox)
    (h : SA3DBox.load fs iPos iEnd = some b) :
    b.m_ChannelMap.length = b.m_iNumChannels := by
  simp only [SA3DBox.load] at h
  split_ifs at h <;>
    first
      | exact Option.noConfusion h
      | (rw [Option.some.injEq] at h
         subst h
         exact readChannelMap_length _ _)

theorem writeChannelMap_length (L : List Nat) :
    (writeChannelMap L).length = 4 * L.length := by
  induction L with
  | nil => rfl
  | cons v tl ih =>
    simp only [writeChannelMap, writeUint32, List.length_append, List.length_cons,
      List.length_nil, ih]
    omega

theorem readChannelMap_writeChannelMap (L : List Nat) (hL : ∀ v ∈ L, v < UINT32_MOD) :
    ∀ rest, readChannelMap (writeChannelMap L ++ rest) L.length = (L, rest) := by
  induction L with
  | nil => intro rest; simp [writeChannelMap, readChannelMap]
  | cons v tl ih =>
    intro rest
    have hv : v < UINT32_MOD := hL v (by simp)
    have hstep := readUint32_writeUint32 v (writeChannelMap tl ++ rest)
    simp only [writeChannelMap, List.append_assoc, List.length_cons, readChannelMap,
      hstep, Nat.mod_eq_of_lt hv]
    rw [ih (fun x hx => hL x (by simp [hx])) rest]

theorem readChannelMap_write_nil (L : List Nat) (hL : ∀ v ∈ L, v < UINT32_MOD) :
    readChannelMap (writeChannelMap L) L.length = (L, []) := by
  have h := readChannelMap_writeChannelMap L hL []
  rwa [List.append_nil] at h

theorem sa3d_load_concat (sz ver typ ord chOrd nrm n iEnd : Nat) (cm : List Nat)
    (h1 : sz % UINT32_MOD ≠ 1)
    (h2 : ¬ add32 0 (sz % UINT32_MOD) > iEnd)
    (hcm : ∀ v ∈ cm, v < UINT32_MOD)
    (hn : n % UINT32_MOD = cm.length) :
    SA3DBox.load
      (writeUint32 sz ++ writeTag TAG_SA3D ++ writeUint8 ver ++ writeUint8 typ ++
        writeUint32 ord ++ writeUint8 chOrd ++ writeUint8 nrm ++ writeUint32 n ++
        writeChannelMap cm) 0 iEnd =
    some ⟨TAG_SA3D, 8, 0, sub32 (sz % UINT32_MOD) 8, ver % 256, typ % 256,
          ord % UINT32_MOD, chOrd % 256, nrm % 256, n % UINT32_MOD, cm⟩ := by
  simp only [SA3DBox.load, List.drop_zero, List.append_assoc, readUint32_writeUint32,
    readTag_writeTag, readUint8_writeUint8, h1, if_false, TAG_SA3D, h2, ne_eq,
    not_true_eq_false, not_false_eq_true]
  simp only [hn, readChannelMap_write_nil cm hcm]

theorem save_create_eq (n : Nat) :
    SA3DBox.save (SA3DBox.create n) =
      writeUint32 (SA3DBox.size (SA3DBox.create n)) ++ writeTag TAG_SA3D ++
      writeUint8 0 ++ writeUint8 0 ++ writeUint32 (Nat.sqrt n - 1) ++
      writeUint8 0 ++ writeUint8 0 ++ writeUint32 n ++
      writeChannelMap (List.range n) := by
  simp [SA3DBox.save, SA3DBox.create]

theorem size_create_eq (n : Nat) :
    SA3DBox.size (SA3DBox.create n) = 20 + 4 * n := by
  simp only [SA3DBox.size, SA3DBox.create]
  omega

theorem save_create_length (n : Nat) :
    (SA3DBox.save (SA3DBox.create n)).length = 20 + 4 * n := by
  rw [save_create_eq, size_create_eq]
  simp only [List.length_append, writeUint32, writeTag, writeUint8, List.length_cons,
    List.length_nil, writeChannelMap_length, List.length_range]
  try omega

/-! ## Verification results for the individual spec claims -/

/-- C9: for every Mpeg4Container and every argument box, `merge` never
returns to the caller and never produces a merged structure: it terminates
the process (exit code 0) with the container unmutated at the point of
termination. -/
theorem merge_always_terminates (c : Mpeg4Container) (b : Box) :
    Mpeg4Container.merge c b = MergeOutcome.processExit 0 c ∧
    ∀ r : Mpeg4Container, Mpeg4Container.merge c b ≠ MergeOutcome.returns r := by
  constructor
  · rfl
  · intro r hr
    simp [Mpeg4Container.merge] at hr

/-- Witness for C9 at a concrete container and box. -/
theorem merge_always_terminates_w :
    Mpeg4Container.merge c9w b9w = MergeOutcome.processExit 0 c9w :=
  (merge_always_terminates c9w b9w).1

/-- C10: the delta of `Mpeg4Container::save` is the unsigned 32-bit
difference of the recomputed media-data start and the load-time value;
when the recomputed start is smaller, the delta is the difference taken
modulo `2^32` — a nonnegative value, never a mathematical negative
integer — and this value is what is forwarded to every child save. -/
theorem save_delta_unsigned_wrap (c : Mpeg4Container)
    (hpos : c.m_iFirstMDatPos < UINT32_MOD)
    (hshrink : newMDatPos 0 c.m_listContents < c.m_iFirstMDatPos) :
    saveDelta c = UINT32_MOD - (c.m_iFirstMDatPos - newMDatPos 0 c.m_listContents) ∧
    (saveDelta c : Int) =
      ((newMDatPos 0 c.m_listContents : Int) - (c.m_iFirstMDatPos : Int)) %
        ((UINT32_MOD : Nat) : Int) ∧
    Mpeg4Container.save c = (saveDelta c, c.m_listContents.map fun b => (b, saveDelta c)) := by
  have hN : UINT32_MOD = 4294967296 := rfl
  have h1 : saveDelta c = UINT32_MOD - (c.m_iFirstMDatPos - newMDatPos 0 c.m_listContents) := by
    simp only [saveDelta, sub32, hN] at *
    omega
  refine ⟨h1, ?_, rfl⟩
  rw [h1]
  simp only [hN] at *
  omega

/-- Witness for C10 at a concrete container whose recorded media-data
start exceeds the recomputed one. -/
theorem save_delta_unsigned_wrap_w :
    saveDelta c10w = UINT32_MOD - (c10w.m_iFirstMDatPos - newMDatPos 0 c10w.m_listContents) :=
  (save_delta_unsigned_wrap c10w (by decide) (by decide)).1

/-- C2 counterexample: loading a list with two movie-metadata boxes gives
a moov reference pointing at the LAST matching child, not the first, so
the claim that every tracked reference points at the first child bearing
its tag fails on this input. -/
theorem load_refs_not_first_cex :
    Mpeg4Container.load listC2 = some c2val ∧
    c2val.m_pMoovBox = some (1, moovB) ∧
    firstMatchFrom TAG_MOOV 0 listC2 = some (0, moovA) ∧
    c2val.m_pMoovBox ≠ firstMatchFrom TAG_MOOV 0 listC2 := by
  refine ⟨by decide, by decide, by decide, by decide⟩

/-- C2 (amended): after a successful load the media-data reference points
at the FIRST child tagged mdat, while the moov, free and ftyp references
point at the LAST child bearing their tag (the assignments are unguarded
and later matches overwrite earlier ones); `m_iFirstMDatPos` is computed
from the first-encountered media-data box. -/
theorem load_refs_amended (L : List Box) (c : Mpeg4Container)
    (h : Mpeg4Container.load L = some c) :
    c.m_pFirstMDatBox = firstMatchFrom TAG_MDAT 0 L ∧
    c.m_pMoovBox = lastMatchFrom TAG_MOOV 0 L ∧
    c.m_pFreeBox = lastMatchFrom TAG_FREE 0 L ∧
    c.m_pFTYPBox = lastMatchFrom TAG_FTYP 0 L ∧
    ∀ p, firstMatchFrom TAG_MDAT 0 L = some p →
      c.m_iFirstMDatPos = add32 p.2.m_iPosition p.2.m_iHeaderSize := by
  have hs := load_spec L c h
  exact ⟨hs.2.1, hs.2.2.1, hs.2.2.2.1, hs.2.2.2.2.1, hs.2.2.2.2.2⟩

/-- Witness for C2 (amended) at the concrete two-moov list. -/
theorem load_refs_amended_w :
    c2val.m_pFirstMDatBox = firstMatchFrom TAG_MDAT 0 listC2 :=
  (load_refs_amended listC2 c2val (by decide)).1

/-- C5: a top-level list without any moov box, or without any mdat box,
fails the container load with a null result; the concrete list holding
one ftyp, one moov, one free and one mdat box loads successfully with all
four references non-null and pointing at the matching children. -/
theorem load_completeness :
    (∀ L : List Box,
      ((∀ b ∈ L, b.m_name ≠ TAG_MOOV) ∨ (∀ b ∈ L, b.m_name ≠ TAG_MDAT)) →
        Mpeg4Container.load L = none) ∧
    Mpeg4Container.load list5 = some c5val ∧
    c5val.m_pFTYPBox = some (0, ftyp5) ∧
    c5val.m_pMoovBox = some (1, moov5) ∧
    c5val.m_pFreeBox = some (2, free5) ∧
    c5val.m_pFirstMDatBox = some (3, mdat5) := by
  refine ⟨?_, by decide, by decide, by decide, by decide, by decide⟩
  intro L h
  cases h with
  | inl hmoov => exact load_eq_none_of_no_moov L hmoov
  | inr hmdat => exact load_eq_none_of_no_mdat L hmdat

/-- Witness for C5 at a concrete moov-free list. -/
theorem load_completeness_w :
    Mpeg4Container.load [⟨TAG_FTYP, 8, 4, 0⟩] = none :=
  load_completeness.1 [⟨TAG_FTYP, 8, 4, 0⟩] (Or.inl (by decide))

/-- C8: the box built by `create n` has ambisonic order
`floor(sqrt(n)) - 1`; in particular 4, 9 and 16 channels give orders 1, 2
and 3. -/
theorem create_ambisonic_order :
    (∀ n : Nat, 0 < n →
      (SA3DBox.create n).m_iAmbisonicOrder = Nat.sqrt n - 1) ∧
    (SA3DBox.create 4).m_iAmbisonicOrder = 1 ∧
    (SA3DBox.create 9).m_iAmbisonicOrder = 2 ∧
    (SA3DBox.create 16).m_iAmbisonicOrder = 3 := by
  have h4 : Nat.sqrt 4 = 2 := by
    rw [show (4 : Nat) = 2 * 2 from rfl]; exact Nat.sqrt_eq 2
  have h9 : Nat.sqrt 9 = 3 := by
    rw [show (9 : Nat) = 3 * 3 from rfl]; exact Nat.sqrt_eq 3
  have h16 : Nat.sqrt 16 = 4 := by
    rw [show (16 : Nat) = 4 * 4 from rfl]; exact Nat.sqrt_eq 4
  refine ⟨fun n _ => rfl, ?_, ?_, ?_⟩ <;>
    simp [SA3DBox.create, h4, h9, h16]

/-- Witness for C8 at the concrete channel count 7. -/
theorem create_ambisonic_order_w :
    (SA3DBox.create 7).m_iAmbisonicOrder = Nat.sqrt 7 - 1 :=
  create_ambisonic_order.1 7 (by decide)

/-- C7 counterexample: a successful load of bytes whose declared size (21)
is inconsistent with the declared channel count (0) produces a box with
`contentSize = 13` and an empty channel map, violating
`contentSize == 12 + 4 * channelCount`. -/
theorem load_size_invariant_cex :
    SA3DBox.load c7bytes 0 1000 = some c7box ∧
    c7box.m_ChannelMap.length = 0 ∧
    c7box.m_iContentSize = 13 ∧
    c7box.m_iContentSize ≠ 12 + 4 * c7box.m_ChannelMap.length := by
  refine ⟨by decide, by decide, by decide, by decide⟩

/-- C7 (amended): every box produced by `create n` satisfies
`contentSize == 12 + 4 * channelCount` with the channel count equal to the
number of channel-map entries; a box produced by a successful `load` has a
channel map whose length equals its channel-count field, but its content
size is taken from the declared box size and need not satisfy the
invariant. -/
theorem content_size_invariant_amended :
    (∀ n : Nat,
      (SA3DBox.create n).m_iContentSize =
        12 + 4 * (SA3DBox.create n).m_ChannelMap.length ∧
      (SA3DBox.create n).m_iNumChannels = (SA3DBox.create n).m_ChannelMap.length) ∧
    (∀ fs iPos iEnd b, SA3DBox.load fs iPos iEnd = some b →
      b.m_ChannelMap.length = b.m_iNumChannels) := by
  constructor
  · intro n
    constructor
    · simp [SA3DBox.create, List.length_range]
    · simp [SA3DBox.create, List.length_range]
  · intro fs iPos iEnd b h
    exact sa3d_load_channelMap_length fs iPos iEnd b h

/-- Witness for C7 (amended) at the channel count 3 and the concrete
loaded box `c7box`. -/
theorem content_size_invariant_amended_w :
    (SA3DBox.create 3).m_iContentSize =
      12 + 4 * (SA3DBox.create 3).m_ChannelMap.length ∧
    c7box.m_ChannelMap.length = c7box.m_iNumChannels :=
  ⟨(content_size_invariant_amended.1 3).1,
   content_size_invariant_amended.2 c7bytes 0 1000 c7box (by decide)⟩

/-- C4: the tag check of `SA3DBox::load` uses
`memcmp ( name, constants::TAG_SA3D, sizeof ( *constants::TAG_SA3D ) )`,
whose length argument is `sizeof ( char ) = 1`, so only the first tag byte
is compared: the bytes `c4bytes`, whose tag S, B, A, D differs from
S, A, 3, D in its second, third and fourth byte, are ACCEPTED by `load`
(a non-null box is returned), contradicting the claim that any byte
mismatch yields a null result; a first-byte mismatch (`c4bytesB`) is
rejected. -/
theorem load_tag_first_byte_only :
    (readTag (c4bytes.drop 4)).1 ≠ TAG_SA3D ∧
    (readTag (c4bytes.drop 4)).1.1 = TAG_SA3D.1 ∧
    (SA3DBox.load c4bytes 0 100).isSome = true ∧
    SA3DBox.load c4bytesB 0 100 = none := by
  refine ⟨by decide, by decide, by decide, by decide⟩

/-- C3: saving a box with the 16-byte header writes the extended form
(marker 1, the tag, the 64-bit total size) and loading those bytes back
succeeds, but the loaded content size is the original PLUS 8, because
`load` subtracts the default 8-byte header size from the parsed total
size instead of the 16-byte extended header size. -/
theorem extended_header_roundtrip_bug :
    (SA3DBox.save c3box).take 16 =
      writeUint32 1 ++ writeTag TAG_SA3D ++ writeUint64 c3box.size ∧
    ((SA3DBox.load (SA3DBox.save c3box) 0 (SA3DBox.save c3box).length).map
        SA3DBox.m_iContentSize) = some (c3box.m_iContentSize + 8) ∧
    c3box.m_iContentSize + 8 ≠ c3box.m_iContentSize := by
  refine ⟨by decide, by decide, by decide⟩

/-- C6: for every channel count in the positive `int32_t` range, saving the
box built by `create n` and parsing the emitted bytes back with `load`
succeeds and reproduces the version, ambisonic type, ambisonic order,
channel ordering, normalization, channel count and channel map of the
created box. -/
theorem create_save_load_roundtrip (n : Nat) (hpos : 0 < n) (hrange : n < 2147483648) :
    ∃ b : SA3DBox,
      SA3DBox.load (SA3DBox.save (SA3DBox.create n)) 0
        (SA3DBox.save (SA3DBox.create n)).length = some b ∧
      b.m_iVersion = (SA3DBox.create n).m_iVersion ∧
      b.m_iAmbisonicType = (SA3DBox.create n).m_iAmbisonicType ∧
      b.m_iAmbisonicOrder = (SA3DBox.create n).m_iAmbisonicOrder ∧
      b.m_iAmbisonicChannelOrdering = (SA3DBox.create n).m_iAmbisonicChannelOrdering ∧
      b.m_iAmbisonicNormalization = (SA3DBox.create n).m_iAmbisonicNormalization ∧
      b.m_iNumChannels = (SA3DBox.create n).m_iNumChannels ∧
      b.m_ChannelMap = (SA3DBox.create n).m_ChannelMap := by
  have hn32 : n < UINT32_MOD := by
    simp only [UINT32_MOD]; omega
  have hord32 : Nat.sqrt n - 1 < UINT32_MOD :=
    Nat.lt_of_le_of_lt (Nat.le_trans (Nat.sub_le _ _) (Nat.sqrt_le_self n)) hn32
  have hne1 : (20 + 4 * n) % UINT32_MOD ≠ 1 := by
    simp only [UINT32_MOD]; omega
  have hbnd : ¬ add32 0 ((20 + 4 * n) % UINT32_MOD) > 20 + 4 * n := by
    simp only [add32, UINT32_MOD]; omega
  have hcm : ∀ v ∈ List.range n, v < UINT32_MOD := by
    intro v hv
    exact Nat.lt_trans (List.mem_range.mp hv) hn32
  have hcount : n % UINT32_MOD = (List.range n).length := by
    rw [List.length_range, Nat.mod_eq_of_lt hn32]
  have hload := sa3d_load_concat (20 + 4 * n) 0 0 (Nat.sqrt n - 1) 0 0 n
    (20 + 4 * n) (List.range n) hne1 hbnd hcm hcount
  refine ⟨⟨TAG_SA3D, 8, 0, sub32 ((20 + 4 * n) % UINT32_MOD) 8, 0 % 256, 0 % 256,
    (Nat.sqrt n - 1) % UINT32_MOD, 0 % 256, 0 % 256, n % UINT32_MOD, List.range n⟩,
    ?_, ?_, ?_, ?_, ?_, ?_, ?_, ?_⟩
  · rw [save_create_length, save_create_eq, size_create_eq]
    exact hload
  · simp [SA3DBox.create]
  · simp [SA3DBox.create]
  · simp [SA3DBox.create, Nat.mod_eq_of_lt hord32]
  · simp [SA3DBox.create]
  · simp [SA3DBox.create]
  · simp [SA3DBox.create, Nat.mod_eq_of_lt hn32]
  · simp [SA3DBox.create]

/-- C1: for a container loaded from a contiguous top-level list, the delta
computed by `save` is the unsigned 32-bit difference of the new media-data
start (sum of the sizes of the children preceding the first mdat child
plus that child's header size) and the load-time `m_iFirstMDatPos`; when
exactly one non-mdat box is inserted before the first mdat child and no
other box changes size, the delta equals the inserted box's serialized
size, and this delta is forwarded to every child save in original list
order. -/
theorem save_delta_insertion (P1 P2 R : List Box) (x m : Box) (c : Mpeg4Container)
    (hm : m.m_name = TAG_MDAT)
    (hP1 : ∀ b ∈ P1, b.m_name ≠ TAG_MDAT)
    (hP2 : ∀ b ∈ P2, b.m_name ≠ TAG_MDAT)
    (hx : x.m_name ≠ TAG_MDAT)
    (hload : Mpeg4Container.load (P1 ++ P2 ++ m :: R) = some c)
    (hcont : contiguousFrom 0 (P1 ++ P2 ++ m :: R) = true)
    (hbound : sumSizes P1 + sumSizes P2 + Box.size x + m.m_iHeaderSize < UINT32_MOD) :
    saveDelta { c with m_listContents := P1 ++ x :: P2 ++ m :: R } =
      sub32 (sumSizes (P1 ++ x :: P2) + m.m_iHeaderSize) c.m_iFirstMDatPos ∧
    saveDelta { c with m_listContents := P1 ++ x :: P2 ++ m :: R } = Box.size x ∧
    Mpeg4Container.save { c with m_listContents := P1 ++ x :: P2 ++ m :: R } =
      (Box.size x, (P1 ++ x :: P2 ++ m :: R).map fun b => (b, Box.size x)) := by
  have hPpre : ∀ b ∈ P1 ++ P2, b.m_name ≠ TAG_MDAT := by
    intro b hb
    rcases List.mem_append.mp hb with h | h
    · exact hP1 b h
    · exact hP2 b h
  have hPins : ∀ b ∈ P1 ++ x :: P2, b.m_name ≠ TAG_MDAT := by
    intro b hb
    rcases List.mem_append.mp hb with h | h
    · exact hP1 b h
    · rcases List.mem_cons.mp h with h | h
      · rw [h]; exact hx
      · exact hP2 b h
  have hS : sumSizes (P1 ++ P2) = sumSizes P1 + sumSizes P2 := sumSizes_append P1 P2
  have hSx : sumSizes (P1 ++ x :: P2) = sumSizes P1 + (Box.size x + sumSizes P2) := by
    rw [sumSizes_append]
    rfl
  have hfm := firstMatchFrom_append TAG_MDAT (P1 ++ P2) hPpre m hm R 0
  have hposm := contiguousFrom_position (P1 ++ P2) m R 0 hcont
  have hfirstpos := (load_spec _ c hload).2.2.2.2.2 (0 + (P1 ++ P2).length, m) hfm
  have hmd : c.m_iFirstMDatPos = sumSizes P1 + sumSizes P2 + m.m_iHeaderSize := by
    rw [hfirstpos]
    show add32 m.m_iPosition m.m_iHeaderSize = _
    rw [hposm, Nat.zero_add, hS, add32_eq _ _ (by omega)]
  have hnew : newMDatPos 0 ((P1 ++ x :: P2) ++ m :: R) =
      0 + sumSizes (P1 ++ x :: P2) + m.m_iHeaderSize :=
    newMDatPos_append (P1 ++ x :: P2) hPins m hm R 0 (by rw [hSx]; omega)
  have hdelta : saveDelta { c with m_listContents := P1 ++ x :: P2 ++ m :: R } =
      Box.size x := by
    show sub32 (newMDatPos 0 ((P1 ++ x :: P2) ++ m :: R)) c.m_iFirstMDatPos = Box.size x
    rw [hnew, Nat.zero_add, hmd, hSx, sub32_eq _ _ (by omega) (by omega)]
    omega
  refine ⟨?_, hdelta, ?_⟩
  · show sub32 (newMDatPos 0 ((P1 ++ x :: P2) ++ m :: R)) c.m_iFirstMDatPos = _
    rw [hnew, Nat.zero_add]
  · simp only [Mpeg4Container.save, Mpeg4Container.resize]
    rw [hdelta]

/-- Witness for C1: injecting a 16-byte free-space box between the
file-type box and the movie-metadata box of a loaded three-box file gives
delta 16. -/
theorem save_delta_insertion_w :
    saveDelta { cW with m_listContents := [ftypW] ++ freeW :: [moovW] ++ mdatW :: [] } =
      Box.size freeW :=
  (save_delta_insertion [ftypW] [moovW] [] freeW mdatW cW (by decide) (by decide)
    (by decide) (by decide) (by decide) (by decide) (by decide)).2.1

/-- Witness for C6 at the concrete channel count 4. -/
theorem create_save_load_roundtrip_w :
    ∃ b : SA3DBox,
      SA3DBox.load (SA3DBox.save (SA3DBox.create 4)) 0
        (SA3DBox.save (SA3DBox.create 4)).length = some b ∧
      b.m_iVersion = (SA3DBox.create 4).m_iVersion ∧
      b.m_iAmbisonicType = (SA3DBox.create 4).m_iAmbisonicType ∧
      b.m_iAmbisonicOrder = (SA3DBox.create 4).m_iAmbisonicOrder ∧
      b.m_iAmbisonicChannelOrdering = (SA3DBox.create 4).m_iAmbisonicChannelOrdering ∧
      b.m_iAmbisonicNormalization = (SA3DBox.create 4).m_iAmbisonicNormalization ∧
      b.m_iNumChannels = (SA3DBox.create 4).m_iNumChannels ∧
      b.m_ChannelMap = (SA3DBox.create 4).m_ChannelMap :=
  create_save_load_roundtrip 4 (by decide) (by decide)

end SpatialMedia
